import Mathlib

/-!
# Verification of the chain-extension call protocol

Shallow embedding of the host/guest chain-extension protocol:

* guest side: `src/contracts/chain_extension/lib.rs` (the `Custom` type, the
  extension declarations, `ExtensionError`, `from_status_code`, the
  `From<scale::Error>` conversion, the contract messages);
* host side: `src/runtime/src/chain_extension.rs` (`CustomDef`,
  `MyExtension::call` dispatching on `func_id` 1/2/3 with a panic default arm).

Bytes are modelled as natural numbers (every byte the codec emits is `< 256`
by construction); machine integers are modelled as `Nat` with explicit bounds
where overflow matters; panics are modelled as a distinguished `trap` outcome;
fallible operations return `Option`.
-/

namespace ChainExtensionDemo

/-! ## Wire codec (SCALE)

The codec itself is the external `parity-scale-codec` crate (only the
`#[derive(Encode, Decode)]` attributes are in the repository), so it is
modelled from the spec (§4.1): deterministic `encode`/`decode`, a bounded mode
for fixed-size types (`u32`) and an unbounded mode for variable-size
aggregates (a struct holding a byte vector, length-prefixed with the SCALE
compact integer encoding). -/

/-- `k` little-endian base-256 digits of `n`. -/
def natToLEBytes : Nat → Nat → List Nat
  | 0, _ => []
  | k + 1, n => n % 256 :: natToLEBytes k (n / 256)

/-- Recombine little-endian base-256 digits into a number. -/
def leBytesToNat : List Nat → Nat
  | [] => 0
  | b :: bs => b + 256 * leBytesToNat bs

/-- Number of base-256 digits needed to write `n` (0 for 0). -/
def byteLen (n : Nat) : Nat :=
  if n = 0 then 0 else Nat.log 256 n + 1

/-- Modelled from the spec: SCALE compact encoding of an unsigned integer
(the length prefix of a byte vector); single-byte mode below 2^6, two-byte
mode below 2^14, four-byte mode below 2^30, big-integer mode above. -/
def compactEncode (n : Nat) : List Nat :=
  if n < 64 then [4 * n]
  else if n < 16384 then natToLEBytes 2 (4 * n + 1)
  else if n < 1073741824 then natToLEBytes 4 (4 * n + 2)
  else (4 * (byteLen n - 4) + 3) :: natToLEBytes (byteLen n) n

/-- Modelled from the spec: SCALE compact decoding; the two low bits of the
first byte select the mode. Returns the value and the unconsumed rest. -/
def compactDecode (l : List Nat) : Option (Nat × List Nat) :=
  match l with
  | [] => none
  | b :: rest =>
    if b % 4 = 0 then some (b / 4, rest)
    else if b % 4 = 1 then
      match rest with
      | b2 :: rest2 => some ((b + 256 * b2) / 4, rest2)
      | [] => none
    else if b % 4 = 2 then
      match rest with
      | b2 :: b3 :: b4 :: rest4 =>
          some ((b + 256 * b2 + 65536 * b3 + 16777216 * b4) / 4, rest4)
      | _ => none
    else
      let m := b / 4 + 4
      if m ≤ rest.length then some (leBytesToNat (rest.take m), rest.drop m)
      else none

/-- Modelled from the spec: SCALE encoding of `u32` — four little-endian
bytes (bounded mode: the size is known from the type alone). -/
def encodeU32 (n : Nat) : List Nat := natToLEBytes 4 n

/-- Modelled from the spec: SCALE decoding of `u32` from the front of a
buffer, returning the value and the unconsumed rest. -/
def decodeU32 (l : List Nat) : Option (Nat × List Nat) :=
  match l with
  | b0 :: b1 :: b2 :: b3 :: rest =>
      some (b0 + 256 * b1 + 65536 * b2 + 16777216 * b3, rest)
  | _ => none

/-- The guest-side `Custom` struct (`lib.rs`): a wrapper around `Vec<u8>`. -/
structure Custom where
  inner : List Nat
deriving DecidableEq, Repr

/-- The host-side `CustomDef` struct (`chain_extension.rs`): the host's
definition of the same wire type, also a wrapper around `Vec<u8>`. -/
structure CustomDef where
  inner : List Nat
deriving DecidableEq, Repr

/-- Derived SCALE encoding of `Custom`: compact length prefix, then the
bytes. -/
def encodeCustom (c : Custom) : List Nat :=
  compactEncode c.inner.length ++ c.inner

/-- Derived SCALE encoding of `CustomDef`: compact length prefix, then the
bytes. -/
def encodeCustomDef (c : CustomDef) : List Nat :=
  compactEncode c.inner.length ++ c.inner

/-- Derived SCALE decoding of `Custom`. -/
def decodeCustom (l : List Nat) : Option (Custom × List Nat) :=
  match compactDecode l with
  | none => none
  | some (len, rest) =>
      if len ≤ rest.length then some (⟨rest.take len⟩, rest.drop len) else none

/-- Derived SCALE decoding of `CustomDef`. -/
def decodeCustomDef (l : List Nat) : Option (CustomDef × List Nat) :=
  match compactDecode l with
  | none => none
  | some (len, rest) =>
      if len ≤ rest.length then some (⟨rest.take len⟩, rest.drop len) else none

/-! ## Guest side (`src/contracts/chain_extension/lib.rs`) -/

/-- The guest-side `ExtensionError` enum: one variant per class of host-side
failure (`NotAPowerOfTwo` for the rejected custom payload, `EncodingFailed`
for codec errors). -/
inductive ExtensionError where
  | NotAPowerOfTwo
  | EncodingFailed
deriving DecidableEq, Repr

/-- `FromStatusCode for ExtensionError` (`lib.rs` lines 40-48):
`0 => Ok(())`, `1 => Err(NotAPowerOfTwo)`, anything else panics.
The panic is modelled as `none`; a returned value is `some`. -/
def from_status_code (status_code : Nat) : Option (Except ExtensionError Unit) :=
  match status_code with
  | 0 => some (Except.ok ())
  | 1 => some (Except.error ExtensionError.NotAPowerOfTwo)
  | _ => none

/-- The codec's opaque error type (`scale::Error`); its content is never
inspected by the repository's code. -/
structure ScaleError where
  mk ::
deriving DecidableEq, Repr

/-- `From<scale::Error> for ExtensionError` (`lib.rs` lines 51-55): every
codec error is mapped to `EncodingFailed`, ignoring the error's content. -/
def extensionError_from_scale (_e : ScaleError) : ExtensionError :=
  ExtensionError.EncodingFailed

/-- One row of the extension interface table: the declaration attributes
`#[ink(extension = ..., returns_result = ..., handle_status = ...)]`. -/
structure ExtensionDecl where
  extension : Nat
  returns_result : Bool
  handle_status : Bool
deriving DecidableEq, Repr

/-- `fn do_something(something: u32)` declared with
`#[ink(extension = 1, returns_result = false, handle_status = false)]`. -/
def do_something_decl : ExtensionDecl := ⟨1, false, false⟩

/-- `fn custom_type(custom: Custom)` declared with `#[ink(extension = 2)]`
(the `returns_result` and `handle_status` flags default to true). -/
def custom_type_decl : ExtensionDecl := ⟨2, true, true⟩

/-- `fn schedule_call(at: u32)` declared with `#[ink(extension = 3)]`
(the `returns_result` and `handle_status` flags default to true). -/
def schedule_call_decl : ExtensionDecl := ⟨3, true, true⟩

/-- What the guest caller observes once a status code comes back across the
boundary. -/
inductive GuestObservation where
  | raw (status : Nat)
  | success
  | failure (e : ExtensionError)
  | aborted
deriving DecidableEq, Repr

/-- Modelled from the spec: the ink!-generated call-return machinery is not
in `src/` (only the declaration attributes are); per §4.2, when
`handle_status` is enabled the returned status code is translated through
`from_status_code` (aborting when the translator panics), and when it is
disabled the raw status code is delivered to the caller unmodified. -/
def guestReceive (decl : ExtensionDecl) (status : Nat) : GuestObservation :=
  if decl.handle_status then
    match from_status_code status with
    | some (Except.ok _) => GuestObservation.success
    | some (Except.error e) => GuestObservation.failure e
    | none => GuestObservation.aborted
  else GuestObservation.raw status

/-- The fixed 4-byte re-entry selector `0x00C0FFEE` the host prepends to the
deferred call's argument payload (`chain_extension.rs` line 133), routing the
replay to the contract's `scheduler_handler` message. -/
def scheduler_handler_selector : List Nat := [0x00, 0xC0, 0xFF, 0xEE]

/-! ## Host side (`src/runtime/src/chain_extension.rs`) -/

/-- The call description built for `pallet_contracts::Call::call`:
destination account, transferred value, gas limit and argument payload. -/
structure ContractCall where
  dest : Nat
  value : Nat
  gas_limit : Nat
  data : List Nat
deriving DecidableEq, Repr

/-- Host state touched by the extension: the calls made into
`pallet_template::do_something` (caller, value) and the scheduler agenda
(execution point, call description). Both pallets are external
collaborators; the state records exactly the side effects the extension
requests of them. -/
structure HostState where
  palletCalls : List (Nat × Nat)
  scheduled : List (Nat × ContractCall)
deriving DecidableEq, Repr

/-- Modelled from the spec: `pallet_template::do_something` (external
collaborator, §1) stores the value on behalf of the signed caller and
succeeds; the state records the invocation. -/
def do_something_pallet (st : HostState) (caller something : Nat) : HostState :=
  { st with palletCalls := st.palletCalls ++ [(caller, something)] }

/-- Modelled from the spec: `pallet_scheduler::schedule` (external
collaborator, §4.6) enqueues the call description keyed by the execution
point and succeeds. -/
def schedule_pallet (st : HostState) (when : Nat) (c : ContractCall) : HostState :=
  { st with scheduled := st.scheduled ++ [(when, c)] }

/-- Modelled from the spec: at execution point `t` the scheduling facility
replays each call scheduled for `t` exactly once (§4.6: one-shot replay). -/
def runScheduledAt (st : HostState) (t : Nat) : List ContractCall :=
  (st.scheduled.filter (fun p => p.1 == t)).map Prod.snd

/-- The gas meter: remaining budget and the weight charged so far. -/
structure Meter where
  gasLeft : Nat
  charged : Nat
deriving DecidableEq, Repr

/-- `env.charge_weight(w)`: deduct `w` from the remaining budget, or fail
with an out-of-gas error when the budget is insufficient. -/
def charge_weight (m : Meter) (w : Nat) : Option Meter :=
  if w ≤ m.gasLeft then some ⟨m.gasLeft - w, m.charged + w⟩ else none

/-- The buffer-in/buffer-out environment handed to `MyExtension::call`:
the guest-written input buffer, the calling account and the executing
contract's own address. -/
structure Env where
  input : List Nat
  caller : Nat
  address : Nat
deriving DecidableEq, Repr

/-- `env.in_len()`: length of the input buffer. -/
def in_len (env : Env) : Nat := env.input.length

/-- `env.read_as::<u32>()`: bounded read — decode a `u32` from the front of
the input buffer. -/
def read_as_u32 (input : List Nat) : Option (Nat × List Nat) := decodeU32 input

/-- `env.read_as_unbounded::<CustomDef>(len)`: unbounded read — decode a
`CustomDef` from the first `len` bytes of the input buffer. -/
def read_as_unbounded (input : List Nat) (len : Nat) : Option (CustomDef × List Nat) :=
  decodeCustomDef (input.take len)

/-- Rust's `usize::is_power_of_two` (`chain_extension.rs` line 99): exactly
one bit set, so 0 is not a power of two. -/
def is_power_of_two (n : Nat) : Bool :=
  n != 0 && Nat.land n (n - 1) == 0

/-- The `DispatchError` values the extension can propagate with `?`: a codec
failure from a read, or an out-of-gas failure from `charge_weight`. -/
inductive DispatchError where
  | decodeFailed
  | outOfGas
deriving DecidableEq, Repr

/-- Outcome of `MyExtension::call`: `Ok(RetVal::Converging(status))`, an
`Err(DispatchError)` (both carrying the host state and meter as left
behind), or a panic (`trap`), which aborts and returns nothing. -/
inductive CallResult where
  | converging (status : Nat) (st : HostState) (m : Meter)
  | dispatchError (e : DispatchError) (st : HostState) (m : Meter)
  | trap
deriving DecidableEq, Repr

/-- `MyExtension::call` (`chain_extension.rs` lines 40-161), dispatching on
`func_id`. `dbw` abstracts `T::DbWeight::get().writes(1)`, a runtime
configuration constant.

* `1`: bounded-read a `u32`, charge `10_000 + dbw`, call
  `pallet_template::do_something(caller, value)`, fall through to
  `Ok(RetVal::Converging(0))`.
* `2`: unbounded-read a `CustomDef` using `in_len`, charge `10_000 + dbw`;
  when the inner length is not a power of two return
  `Ok(RetVal::Converging(1))` early, otherwise call
  `do_something(caller, len)` and fall through to `Converging(0)`.
* `3`: bounded-read the `u32` execution point; no weight is charged (the
  `charge_weight` call is commented out in the source); build the call
  description targeting the contract's own address with the 4-byte selector
  as the whole payload and the remaining gas as limit, hand it to
  `pallet_scheduler::schedule`, fall through to `Converging(0)`.
* any other id: `panic!`, modelled as `trap`. -/
def call (dbw : Nat) (func_id : Nat) (st : HostState) (env : Env) (m : Meter) :
    CallResult :=
  match func_id with
  | 1 =>
    match read_as_u32 env.input with
    | none => CallResult.dispatchError DispatchError.decodeFailed st m
    | some (something, _) =>
      match charge_weight m (10000 + dbw) with
      | none => CallResult.dispatchError DispatchError.outOfGas st m
      | some m1 =>
        CallResult.converging 0 (do_something_pallet st env.caller something) m1
  | 2 =>
    match read_as_unbounded env.input (in_len env) with
    | none => CallResult.dispatchError DispatchError.decodeFailed st m
    | some (custom, _) =>
      match charge_weight m (10000 + dbw) with
      | none => CallResult.dispatchError DispatchError.outOfGas st m
      | some m1 =>
        if ¬ is_power_of_two custom.inner.length then
          CallResult.converging 1 st m1
        else
          CallResult.converging 0
            (do_something_pallet st env.caller custom.inner.length) m1
  | 3 =>
    match read_as_u32 env.input with
    | none => CallResult.dispatchError DispatchError.decodeFailed st m
    | some (when, _) =>
      let c : ContractCall :=
        ⟨env.address, 0, m.gasLeft, scheduler_handler_selector⟩
      CallResult.converging 0 (schedule_pallet st when c) m
  | _ => CallResult.trap

/-- The host state left behind by a call outcome (`none` on a panic). -/
def stateOf : CallResult → Option HostState
  | CallResult.converging _ st _ => some st
  | CallResult.dispatchError _ st _ => some st
  | CallResult.trap => none

/-- The weight charged so far in the meter left behind by a call outcome
(`none` on a panic). -/
def chargedOf : CallResult → Option Nat
  | CallResult.converging _ _ m => some m.charged
  | CallResult.dispatchError _ _ m => some m.charged
  | CallResult.trap => none

end ChainExtensionDemo

namespace ChainExtensionDemo

/-! ## Codec lemmas -/

theorem natToLEBytes_length (k n : Nat) : (natToLEBytes k n).length = k := by
  induction k generalizing n with
  | zero => rfl
  | succ j ih => simp [natToLEBytes, ih]

theorem leBytesToNat_natToLEBytes (k n : Nat) (h : n < 256 ^ k) :
    leBytesToNat (natToLEBytes k n) = n := by
  induction k generalizing n with
  | zero => simp at h; simp [natToLEBytes, leBytesToNat, h]
  | succ j ih =>
    have hdiv : n / 256 < 256 ^ j := by
      rw [Nat.div_lt_iff_lt_mul (by norm_num)]
      calc n < 256 ^ (j + 1) := h
        _ = 256 ^ j * 256 := by rw [Nat.pow_succ]
    simp only [natToLEBytes, leBytesToNat, ih (n / 256) hdiv]
    omega

theorem lt_pow_byteLen (n : Nat) : n < 256 ^ byteLen n := by
  unfold byteLen
  by_cases h : n = 0
  · simp [h]
  · simp only [h, if_false]
    exact Nat.lt_pow_succ_log_self (by norm_num) n

theorem byteLen_ge_four (n : Nat) (h : 1073741824 ≤ n) : 4 ≤ byteLen n := by
  unfold byteLen
  have hn : n ≠ 0 := by omega
  simp only [hn, if_false]
  have h3 : (256 : Nat) ^ 3 ≤ n := by norm_num; omega
  have := (Nat.pow_le_iff_le_log (by norm_num) hn).mp h3
  omega

theorem compactDecode_compactEncode (n : Nat) (rest : List Nat) :
    compactDecode (compactEncode n ++ rest) = some (n, rest) := by
  unfold compactEncode
  by_cases h1 : n < 64
  · simp only [h1, if_true, List.cons_append, List.nil_append, compactDecode]
    rw [if_pos (by omega)]
    simp only [Option.some.injEq, Prod.mk.injEq]
    exact ⟨by omega, trivial⟩
  · by_cases h2 : n < 16384
    · simp only [h1, if_false, h2, if_true, natToLEBytes, List.cons_append,
        List.nil_append, compactDecode]
      rw [if_neg (by omega), if_pos (by omega)]
      simp only [Option.some.injEq, Prod.mk.injEq]
      have hx : 4 * n + 1 < 65536 := by omega
      exact ⟨by omega, trivial⟩
    · by_cases h3 : n < 1073741824
      · simp only [h1, if_false, h2, h3, if_true, natToLEBytes, List.cons_append,
          List.nil_append, compactDecode]
        rw [if_neg (by omega), if_neg (by omega), if_pos (by omega)]
        simp only [Option.some.injEq, Prod.mk.injEq]
        have hx : 4 * n + 2 < 4294967296 := by omega
        exact ⟨by omega, trivial⟩
      · have hbl : 4 ≤ byteLen n := byteLen_ge_four n (by omega)
        simp only [h1, if_false, h2, h3, List.cons_append, compactDecode]
        rw [if_neg (by omega), if_neg (by omega), if_neg (by omega)]
        have hm : (4 * (byteLen n - 4) + 3) / 4 + 4 = byteLen n := by omega
        simp only [hm]
        have hlen : (natToLEBytes (byteLen n) n).length = byteLen n :=
          natToLEBytes_length _ _
        rw [if_pos (by simp [hlen])]
        rw [List.take_left' hlen, List.drop_left' hlen]
        rw [leBytesToNat_natToLEBytes _ _ (lt_pow_byteLen n)]

theorem decodeU32_encodeU32 (n : Nat) (rest : List Nat) (h : n < 4294967296) :
    decodeU32 (encodeU32 n ++ rest) = some (n, rest) := by
  simp only [encodeU32, natToLEBytes, List.cons_append, List.nil_append, decodeU32]
  simp only [Option.some.injEq, Prod.mk.injEq]
  exact ⟨by omega, trivial⟩

theorem decodeCustomDef_encodeCustom (c : Custom) :
    decodeCustomDef (encodeCustom c) = some (⟨c.inner⟩, []) := by
  unfold decodeCustomDef encodeCustom
  rw [compactDecode_compactEncode]
  simp

theorem decodeCustom_encodeCustom (c : Custom) :
    decodeCustom (encodeCustom c) = some (c, []) := by
  unfold decodeCustom encodeCustom
  rw [compactDecode_compactEncode]
  simp

theorem decodeCustomDef_encodeCustomDef (c : CustomDef) :
    decodeCustomDef (encodeCustomDef c) = some (c, []) := by
  unfold decodeCustomDef encodeCustomDef
  rw [compactDecode_compactEncode]
  simp

theorem charge_weight_insufficient (m : Meter) (w : Nat) (h : m.gasLeft < w) :
    charge_weight m w = none := by
  unfold charge_weight
  rw [if_neg (by omega)]

theorem charge_weight_sufficient (m : Meter) (w : Nat) (h : w ≤ m.gasLeft) :
    charge_weight m w = some ⟨m.gasLeft - w, m.charged + w⟩ := by
  unfold charge_weight
  rw [if_pos h]

theorem read_as_unbounded_full (c : Custom) :
    read_as_unbounded (encodeCustom c) (encodeCustom c).length = some (⟨c.inner⟩, []) := by
  unfold read_as_unbounded
  rw [List.take_length]
  exact decodeCustomDef_encodeCustom c

/-! ## Claim theorems -/

/-- C1: the status-code translator `from_status_code` maps 0 to success,
maps the only other in-range status code (1) to exactly the `NotAPowerOfTwo`
variant, and on any other status code panics (modelled as `none`), never
yielding success or a default error. -/
theorem C1_from_status_code_total :
    from_status_code 0 = some (Except.ok ()) ∧
    from_status_code 1 = some (Except.error ExtensionError.NotAPowerOfTwo) ∧
    ∀ c : Nat, c ≠ 0 → c ≠ 1 → from_status_code c = none := by
  refine ⟨rfl, rfl, ?_⟩
  intro c h0 h1
  match c with
  | 0 => exact absurd rfl h0
  | 1 => exact absurd rfl h1
  | n + 2 => rfl

/-- Witness for C1 at status code 7. -/
theorem C1_from_status_code_total_witness :
    from_status_code 7 = none :=
  C1_from_status_code_total.2.2 7 (by decide) (by decide)

/-- C2: for every function id outside {1, 2, 3} the host dispatcher panics
(`trap`) and never returns a `RetVal` or status code to the guest. -/
theorem C2_unknown_func_id_traps (dbw f : Nat) (st : HostState) (env : Env)
    (m : Meter) (h1 : f ≠ 1) (h2 : f ≠ 2) (h3 : f ≠ 3) :
    call dbw f st env m = CallResult.trap := by
  match f with
  | 0 => rfl
  | 1 => exact absurd rfl h1
  | 2 => exact absurd rfl h2
  | 3 => exact absurd rfl h3
  | n + 4 => rfl

/-- Witness for C2 at function ids 99 and 0. -/
theorem C2_unknown_func_id_traps_witness :
    call 5 99 ⟨[], []⟩ ⟨[], 7, 9⟩ ⟨0, 0⟩ = CallResult.trap ∧
    call 5 0 ⟨[], []⟩ ⟨[], 7, 9⟩ ⟨0, 0⟩ = CallResult.trap :=
  ⟨C2_unknown_func_id_traps 5 99 ⟨[], []⟩ ⟨[], 7, 9⟩ ⟨0, 0⟩
      (by decide) (by decide) (by decide),
    C2_unknown_func_id_traps 5 0 ⟨[], []⟩ ⟨[], 7, 9⟩ ⟨0, 0⟩
      (by decide) (by decide) (by decide)⟩

/-- C3 counterexample: the deferred-call submission (func id 3) does NOT
charge the caller at submission time. On a meter with zero remaining budget
(so any `charge_weight` would fail) the call still succeeds, schedules the
deferred call (a host-side mutation), and leaves the charged weight at 0. -/
theorem C3_counterexample :
    call 5 3 ⟨[], []⟩ ⟨encodeU32 100, 7, 9⟩ ⟨0, 0⟩ =
      CallResult.converging 0
        ⟨[], [(100, ⟨9, 0, 0, scheduler_handler_selector⟩)]⟩ ⟨0, 0⟩ ∧
    chargedOf (call 5 3 ⟨[], []⟩ ⟨encodeU32 100, 7, 9⟩ ⟨0, 0⟩) = some 0 := by
  decide

/-- C3 amended: for func ids 1 and 2 the weight charge is applied before the
pallet side effect, so when the budget is insufficient the host state is
left unmutated; func id 3 performs no weight charge at all at submission
(its `charge_weight` is commented out in the source), so its meter is always
returned with the charged amount unchanged. -/
theorem C3_charge_then_act (dbw : Nat) (st : HostState) (env : Env) (m : Meter)
    (h : m.gasLeft < 10000 + dbw) :
    stateOf (call dbw 1 st env m) = some st ∧
    stateOf (call dbw 2 st env m) = some st ∧
    chargedOf (call dbw 3 st env m) = some m.charged := by
  have hcw : charge_weight m (10000 + dbw) = none :=
    charge_weight_insufficient m (10000 + dbw) h
  refine ⟨?_, ?_, ?_⟩
  · cases hr : read_as_u32 env.input with
    | none => simp [call, hr, stateOf]
    | some p => cases p with
      | mk v rest => simp [call, hr, hcw, stateOf]
  · cases hr : read_as_unbounded env.input (in_len env) with
    | none => simp [call, hr, stateOf]
    | some p => cases p with
      | mk c rest => simp [call, hr, hcw, stateOf]
  · cases hr : read_as_u32 env.input with
    | none => simp [call, hr, chargedOf]
    | some p => cases p with
      | mk v rest => simp [call, hr, chargedOf]

/-- Witness for C3 amended: meter with zero budget, `dbw = 5`. -/
theorem C3_charge_then_act_witness :
    stateOf (call 5 1 ⟨[], []⟩ ⟨encodeU32 42, 7, 9⟩ ⟨0, 0⟩) = some ⟨[], []⟩ ∧
    stateOf (call 5 2 ⟨[], []⟩ ⟨encodeU32 42, 7, 9⟩ ⟨0, 0⟩) = some ⟨[], []⟩ ∧
    chargedOf (call 5 3 ⟨[], []⟩ ⟨encodeU32 42, 7, 9⟩ ⟨0, 0⟩) = some 0 :=
  C3_charge_then_act 5 ⟨[], []⟩ ⟨encodeU32 42, 7, 9⟩ ⟨0, 0⟩ (by decide)

/-- C4: a `custom_type` call (func id 2) whose inner byte vector has a
length that is not a power of two is decoded by the host via the unbounded
read over the full input length, charged, rejected with
`RetVal::Converging(1)` without invoking the pallet side effect (the host
state is returned unchanged), and the guest translator maps status code 1 to
`ErrorCode::NotAPowerOfTwo`. -/
theorem C4_custom_rejected (dbw : Nat) (st : HostState) (inner : List Nat)
    (caller addr : Nat) (m : Meter)
    (hp : is_power_of_two inner.length = false)
    (hg : 10000 + dbw ≤ m.gasLeft) :
    call dbw 2 st ⟨encodeCustom ⟨inner⟩, caller, addr⟩ m =
      CallResult.converging 1 st
        ⟨m.gasLeft - (10000 + dbw), m.charged + (10000 + dbw)⟩ ∧
    from_status_code 1 = some (Except.error ExtensionError.NotAPowerOfTwo) ∧
    guestReceive custom_type_decl 1 =
      GuestObservation.failure ExtensionError.NotAPowerOfTwo := by
  have hread : read_as_unbounded (encodeCustom ⟨inner⟩)
      (in_len ⟨encodeCustom ⟨inner⟩, caller, addr⟩) = some (⟨inner⟩, []) :=
    read_as_unbounded_full ⟨inner⟩
  have hcw := charge_weight_sufficient m (10000 + dbw) hg
  refine ⟨?_, rfl, rfl⟩
  simp [call, hread, hcw, hp]

/-- Witness for C4 at the inner vector `[1, 2, 3]` (length 3). -/
theorem C4_custom_rejected_witness :
    call 5 2 ⟨[], []⟩ ⟨encodeCustom ⟨[1, 2, 3]⟩, 7, 9⟩ ⟨20000, 0⟩ =
      CallResult.converging 1 ⟨[], []⟩ ⟨20000 - (10000 + 5), 0 + (10000 + 5)⟩ ∧
    from_status_code 1 = some (Except.error ExtensionError.NotAPowerOfTwo) ∧
    guestReceive custom_type_decl 1 =
      GuestObservation.failure ExtensionError.NotAPowerOfTwo :=
  C4_custom_rejected 5 ⟨[], []⟩ [1, 2, 3] 7 9 ⟨20000, 0⟩ (by decide) (by decide)

/-- C5: a `do_something` call (func id 1) with the encoded `u32` payload 42
decodes 42 via the bounded read, charges the weight, invokes the pallet's
`do_something` with 42 on behalf of the caller, and returns
`RetVal::Converging(0)`; status 0 is the success status. -/
theorem C5_do_something_42 (dbw : Nat) (st : HostState) (caller addr : Nat)
    (m : Meter) (hg : 10000 + dbw ≤ m.gasLeft) :
    call dbw 1 st ⟨encodeU32 42, caller, addr⟩ m =
      CallResult.converging 0 ⟨st.palletCalls ++ [(caller, 42)], st.scheduled⟩
        ⟨m.gasLeft - (10000 + dbw), m.charged + (10000 + dbw)⟩ ∧
    from_status_code 0 = some (Except.ok ()) := by
  have hread : read_as_u32 (encodeU32 42) = some (42, []) := by decide
  have hcw := charge_weight_sufficient m (10000 + dbw) hg
  refine ⟨?_, rfl⟩
  simp [call, hread, hcw, do_something_pallet]

/-- Witness for C5 on an empty initial state with budget 20000. -/
theorem C5_do_something_42_witness :
    call 5 1 ⟨[], []⟩ ⟨encodeU32 42, 7, 9⟩ ⟨20000, 0⟩ =
      CallResult.converging 0 ⟨[] ++ [(7, 42)], []⟩
        ⟨20000 - (10000 + 5), 0 + (10000 + 5)⟩ ∧
    from_status_code 0 = some (Except.ok ()) :=
  C5_do_something_42 5 ⟨[], []⟩ 7 9 ⟨20000, 0⟩ (by decide)

/-- C6: decode-of-encode round trips for both declared wire types, in both
modes: `u32` under the bounded read, `Custom`/`CustomDef` under the
unbounded read; the host-side `CustomDef` encoding coincides byte for byte
with the guest-side `Custom` encoding, and the host decodes exactly what
the guest encoded. -/
theorem C6_roundtrip :
    (∀ (n : Nat) (rest : List Nat), n < 4294967296 →
        decodeU32 (encodeU32 n ++ rest) = some (n, rest)) ∧
    (∀ c : Custom, decodeCustom (encodeCustom c) = some (c, [])) ∧
    (∀ c : CustomDef, decodeCustomDef (encodeCustomDef c) = some (c, [])) ∧
    (∀ inner : List Nat, encodeCustom ⟨inner⟩ = encodeCustomDef ⟨inner⟩) ∧
    (∀ c : Custom, read_as_unbounded (encodeCustom c) (encodeCustom c).length =
        some (⟨c.inner⟩, [])) :=
  ⟨decodeU32_encodeU32, decodeCustom_encodeCustom,
    decodeCustomDef_encodeCustomDef, fun _ => rfl, read_as_unbounded_full⟩

/-- Witness for C6 at `n = 42` and inner vector `[1, 2, 3]`. -/
theorem C6_roundtrip_witness :
    decodeU32 (encodeU32 42 ++ []) = some (42, []) ∧
    decodeCustom (encodeCustom ⟨[1, 2, 3]⟩) = some (⟨[1, 2, 3]⟩, []) :=
  ⟨C6_roundtrip.1 42 [] (by decide), C6_roundtrip.2.1 ⟨[1, 2, 3]⟩⟩

/-- C7: the guest-side conversion from the codec's error type maps every
decode failure to the dedicated `EncodingFailed` error code, and on the host
side a decode failure of the arguments (in any of the three branches) yields
the decode-error outcome directly, with the meter never charged and the host
state never mutated — no metering, no execution. -/
theorem C7_decode_failure_short_circuits (dbw : Nat) (st : HostState)
    (env : Env) (m : Meter) :
    (∀ e : ScaleError, extensionError_from_scale e = ExtensionError.EncodingFailed) ∧
    (read_as_u32 env.input = none →
      call dbw 1 st env m = CallResult.dispatchError DispatchError.decodeFailed st m ∧
      call dbw 3 st env m = CallResult.dispatchError DispatchError.decodeFailed st m) ∧
    (read_as_unbounded env.input (in_len env) = none →
      call dbw 2 st env m = CallResult.dispatchError DispatchError.decodeFailed st m) := by
  refine ⟨fun _ => rfl, fun h => ⟨?_, ?_⟩, fun h => ?_⟩ <;> simp [call, h]

/-- Witness for C7 at the empty (undecodable) input buffer. -/
theorem C7_decode_failure_short_circuits_witness :
    call 5 1 ⟨[], []⟩ ⟨[], 7, 9⟩ ⟨20000, 0⟩ =
      CallResult.dispatchError DispatchError.decodeFailed ⟨[], []⟩ ⟨20000, 0⟩ ∧
    call 5 2 ⟨[], []⟩ ⟨[], 7, 9⟩ ⟨20000, 0⟩ =
      CallResult.dispatchError DispatchError.decodeFailed ⟨[], []⟩ ⟨20000, 0⟩ :=
  ⟨((C7_decode_failure_short_circuits 5 ⟨[], []⟩ ⟨[], 7, 9⟩ ⟨20000, 0⟩).2.1
      (by decide)).1,
    (C7_decode_failure_short_circuits 5 ⟨[], []⟩ ⟨[], 7, 9⟩ ⟨20000, 0⟩).2.2
      (by decide)⟩

/-- C8 counterexample: the deferred call's argument payload is exactly the
4-byte re-entry selector — the stored original arguments (`encodeU32 100`
here) are NOT appended after it, contrary to the claim. -/
theorem C8_counterexample :
    call 5 3 ⟨[], []⟩ ⟨encodeU32 100, 7, 9⟩ ⟨50000, 0⟩ =
      CallResult.converging 0
        ⟨[], [(100, ⟨9, 0, 50000, scheduler_handler_selector⟩)]⟩ ⟨50000, 0⟩ ∧
    scheduler_handler_selector ≠ scheduler_handler_selector ++ encodeU32 100 := by
  decide

/-- C8 amended: the deferred call built by the `schedule_call` branch
targets the calling contract's own address and carries as argument payload
exactly the fixed 4-byte re-entry selector `0x00C0FFEE`, with no further
arguments appended; at the scheduled execution point the host replays it
against the guest's re-entry selector exactly once. -/
theorem C8_deferred_call (dbw whenPt caller addr : Nat) (tail : List Nat)
    (m : Meter) (h : whenPt < 4294967296) :
    call dbw 3 ⟨[], []⟩ ⟨encodeU32 whenPt ++ tail, caller, addr⟩ m =
      CallResult.converging 0
        ⟨[], [(whenPt, ⟨addr, 0, m.gasLeft, scheduler_handler_selector⟩)]⟩ m ∧
    runScheduledAt
        ⟨[], [(whenPt, ⟨addr, 0, m.gasLeft, scheduler_handler_selector⟩)]⟩ whenPt =
      [⟨addr, 0, m.gasLeft, scheduler_handler_selector⟩] := by
  have hread : read_as_u32 (encodeU32 whenPt ++ tail) = some (whenPt, tail) :=
    decodeU32_encodeU32 whenPt tail h
  constructor
  · simp [call, hread, schedule_pallet]
  · simp [runScheduledAt]

/-- Witness for C8 amended at execution point 100. -/
theorem C8_deferred_call_witness :
    call 5 3 ⟨[], []⟩ ⟨encodeU32 100 ++ [], 7, 9⟩ ⟨50000, 0⟩ =
      CallResult.converging 0
        ⟨[], [(100, ⟨9, 0, 50000, scheduler_handler_selector⟩)]⟩ ⟨50000, 0⟩ ∧
    runScheduledAt
        ⟨[], [(100, ⟨9, 0, 50000, scheduler_handler_selector⟩)]⟩ 100 =
      [⟨9, 0, 50000, scheduler_handler_selector⟩] :=
  C8_deferred_call 5 100 7 9 [] ⟨50000, 0⟩ (by decide)

/-- C9: the `do_something` extension (func id 1) is declared with
`handle_status = false`, so any status code the host returns — in particular
a nonzero one — is delivered to the guest caller as the raw status value,
never automatically translated into an `ErrorCode`. -/
theorem C9_raw_status_when_handle_status_disabled (s : Nat) (hs : s ≠ 0) :
    do_something_decl.handle_status = false ∧
    guestReceive do_something_decl s = GuestObservation.raw s :=
  ⟨rfl, rfl⟩

/-- Witness for C9 at status code 5. -/
theorem C9_raw_status_when_handle_status_disabled_witness :
    do_something_decl.handle_status = false ∧
    guestReceive do_something_decl 5 = GuestObservation.raw 5 :=
  C9_raw_status_when_handle_status_disabled 5 (by decide)

/-- C10: every `RetVal` the host dispatcher returns successfully is
`Converging 0` or `Converging 1`, so on every status code the host can
actually emit the guest translator returns without reaching its panic arm. -/
theorem C10_host_status_in_translator_range (dbw f : Nat) (st : HostState)
    (env : Env) (m : Meter) (s : Nat) (st2 : HostState) (m2 : Meter)
    (h : call dbw f st env m = CallResult.converging s st2 m2) :
    (s = 0 ∨ s = 1) ∧ from_status_code s ≠ none := by
  have hs : s = 0 ∨ s = 1 := by
    match f with
    | 0 => simp [call] at h
    | 1 =>
      cases hr : read_as_u32 env.input with
      | none => rw [call, hr] at h; simp at h
      | some p =>
        cases p with
        | mk v rest =>
          cases hc : charge_weight m (10000 + dbw) with
          | none => rw [call, hr, hc] at h; simp at h
          | some m1 =>
            rw [call, hr, hc] at h
            simp at h
            omega
    | 2 =>
      cases hr : read_as_unbounded env.input (in_len env) with
      | none => rw [call, hr] at h; simp at h
      | some p =>
        cases p with
        | mk c rest =>
          cases hc : charge_weight m (10000 + dbw) with
          | none => rw [call, hr, hc] at h; simp at h
          | some m1 =>
            rw [call, hr, hc] at h
            by_cases hp : is_power_of_two c.inner.length
            · simp [hp] at h
              omega
            · simp [hp] at h
              omega
    | 3 =>
      cases hr : read_as_u32 env.input with
      | none => rw [call, hr] at h; simp at h
      | some p =>
        cases p with
        | mk v rest =>
          rw [call, hr] at h
          simp at h
          omega
    | n + 4 => simp [call] at h
  refine ⟨hs, ?_⟩
  rcases hs with h0 | h1
  · rw [h0]; simp [from_status_code]
  · rw [h1]; simp [from_status_code]

/-- Witness for C10 on a concrete successful func-1 call. -/
theorem C10_host_status_in_translator_range_witness :
    ((0 : Nat) = 0 ∨ (0 : Nat) = 1) ∧ from_status_code 0 ≠ none :=
  C10_host_status_in_translator_range 5 1 ⟨[], []⟩ ⟨encodeU32 42, 7, 9⟩
    ⟨20000, 0⟩ 0 ⟨[(7, 42)], []⟩ ⟨9995, 10005⟩ (by decide)

end ChainExtensionDemo
